import Mathlib

/-!
Verification of the page layout and composition engine of `go-flipbook`
(`pkg/composite/composite.go`), shallowly embedded in Lean.

The engine is modelled over abstract frame images (a type parameter):
the file-system stages (reading the input directory, decoding PNGs,
applying effects, encoding JPEGs) are elided, while every index
computation, the trim, the cover substitution, the page loop, the
output-file numbering, and the per-cell placement geometry are
translated directly from the Go source.  Fallible list indexing
(`frames[fi]` in Go, which panics when out of range) is embedded as
`List.getElem?`, returning `none` exactly when Go would panic.
-/

namespace Flipbook

/-- Pixel rectangle, mirroring the unexported `rect` struct of
`composite.go` (top, left, width, height).  All quantities that reach
this struct in the source are non-negative machine integers, so the
model uses `Nat`. -/
structure Rect where
  top : Nat
  left : Nat
  width : Nat
  height : Nat
deriving DecidableEq, Repr

/-- The fields of `composite.Options` that the layout and numbering
logic reads.  I/O-only fields (directories, font bytes, logger, GIF and
small-frame switches, effect name) are omitted: they never influence the
index computations modelled here. -/
structure Options where
  rows : Nat
  cols : Nat
  bgColor : String
  identifier : String
  reversePages : Bool
  reverseFrames : Bool
  cover : Bool
deriving DecidableEq, Repr

/-- One placement produced by a layout function, mirroring the
unexported `frame` struct of `composite.go`.  The Go field
`info os.FileInfo` (the underlying image file) becomes `info : Option α`:
`frames[fi]` is embedded as `frames[fi]?`, so `info = none` exactly when
the Go code would panic with an out-of-range index. -/
structure Frame (α : Type) where
  info : Option α
  index : Nat
  label : String
  isFrontCover : Bool
  bounds : Rect
deriving DecidableEq, Repr

/-- The loop body of the layout closure inside `To4x6x3`
(composite.go:162-183): the placement for row `ri` of one page of the
three-row single-column layout.  `fi := pageIndex + ri*nPages`,
remapped to `nFrames - fi - 1` when `ReverseFrames` is set (in every
reachable call `fi < nFrames`, so truncated `Nat` subtraction agrees
with the Go `int` arithmetic).  The cell band height is
`renderBounds.height / opts.rows` with the same integer division as Go. -/
def cell4x6x3 {α : Type} (pageIndex nPages frontCoverIndex : Nat)
    (renderBounds : Rect) (opts : Options) (frames : List α) (ri : Nat) : Frame α :=
  let nFrames := frames.length
  let fi0 := pageIndex + ri * nPages
  let fi := if opts.reverseFrames then nFrames - fi0 - 1 else fi0
  let frameHeight := renderBounds.height / opts.rows
  { info := frames[fi]?
    index := fi
    label := opts.identifier
    isFrontCover := fi == frontCoverIndex
    bounds :=
      { left := renderBounds.left
        top := renderBounds.top + frameHeight * ri
        width := renderBounds.width
        height := frameHeight } }

/-- The loop of the `To4x6x3` layout closure: one placement per row. -/
def layoutPage4x6x3 {α : Type} (pageIndex nPages frontCoverIndex : Nat)
    (renderBounds : Rect) (opts : Options) (frames : List α) : List (Frame α) :=
  (List.range opts.rows).map fun ri =>
    cell4x6x3 pageIndex nPages frontCoverIndex renderBounds opts frames ri

/-- The loop body of the layout closure inside `ToLetter`
(composite.go:201-227): the placement for column `ci`, row `ri` of one
page of the rows-by-cols grid layout, with
`fi := pageIndex + (ri*nPages + ci*nPages*opts.rows)`. -/
def cellLetter {α : Type} (pageIndex nPages frontCoverIndex : Nat)
    (renderBounds : Rect) (opts : Options) (frames : List α) (ci ri : Nat) : Frame α :=
  let nFrames := frames.length
  let fi0 := pageIndex + (ri * nPages + ci * nPages * opts.rows)
  let fi := if opts.reverseFrames then nFrames - fi0 - 1 else fi0
  let frameHeight := renderBounds.height / opts.rows
  let frameWidth := renderBounds.width / opts.cols
  { info := frames[fi]?
    index := fi
    label := opts.identifier
    isFrontCover := fi == frontCoverIndex
    bounds :=
      { left := renderBounds.left + ci * frameWidth
        top := renderBounds.top + frameHeight * ri
        width := frameWidth
        height := frameHeight } }

/-- The double loop of the `ToLetter` layout closure: columns outer,
rows inner, exactly as in the source. -/
def layoutPageLetter {α : Type} (pageIndex nPages frontCoverIndex : Nat)
    (renderBounds : Rect) (opts : Options) (frames : List α) : List (Frame α) :=
  (List.range opts.cols).flatMap fun ci =>
    (List.range opts.rows).map fun ri =>
      cellLetter pageIndex nPages frontCoverIndex renderBounds opts frames ci ri

/-- The trim step of `renderPages` (composite.go:249):
`frames = frames[:framesPerPage*(len(frames)/framesPerPage)]`. -/
def trimFrames {α : Type} (framesPerPage : Nat) (frames : List α) : List α :=
  frames.take (framesPerPage * (frames.length / framesPerPage))

/-- The cover block of `renderPages` (composite.go:251-277).  When the
cover is enabled the source reads `frames[0]` (panic when the trimmed
list is empty, modelled as an error), renders and saves the cover image
(I/O, elided; the resulting image is the `coverImg` argument), picks
`coverImgIndex` (`len(frames)-1` when frames are reversed, else `0`) and
substitutes the cover image at that index.  When the cover is disabled
`coverImgIndex` keeps its zero default and the frame list is unchanged. -/
def coverSetup {α : Type} (cover reverseFrames : Bool) (coverImg : α)
    (frames : List α) : Except String (List α × Nat) :=
  if cover then
    match frames[0]? with
    | none => Except.error "index out of range"
    | some _ =>
      let coverImgIndex := if reverseFrames then frames.length - 1 else 0
      Except.ok (frames.set coverImgIndex coverImg, coverImgIndex)
  else Except.ok (frames, 0)

/-- Zero padding of the page number as produced by the Go format string
`%03d` in `writeJPG` (composite.go:537). -/
def pad3 (n : Nat) : String :=
  let s := toString n
  if s.length < 3 then String.mk (List.replicate (3 - s.length) (Char.ofNat 48)) ++ s else s

/-- The output file name `comp-<identifier>-<NNN>.jpg` written by
`writeJPG` (composite.go:537). -/
def jpgName (identifier : String) (imgIndex : Nat) : String :=
  "comp-" ++ identifier ++ "-" ++ pad3 imgIndex ++ ".jpg"

/-- One rendered page of a run: the output index chosen by the
page-reversal branch (composite.go:384-389), the JPEG file name it is
written to, and the ordered placements the layout produced for it. -/
structure PageOut (α : Type) where
  outputIndex : Nat
  fileName : String
  placements : List (Frame α)
deriving DecidableEq, Repr

/-- The orchestration of `renderPages` (composite.go:235-400) restricted
to its index-level behaviour: trim, cover substitution, page count
`nPages = nFrames / framesPerPage`, per-page layout invocation, and the
output numbering `compIndex = reversePages ? nPages-pi-1 : pi`.  The
effect pass only rewrites frame files on disk and is elided; JPEG
encoding is represented by the produced file name. -/
def renderPagesModel {α : Type}
    (layout : Nat → Nat → Nat → Rect → Options → List α → List (Frame α))
    (opts : Options) (renderBounds : Rect) (coverImg : α) (inputFrames : List α) :
    Except String (List (PageOut α)) :=
  let framesPerPage := opts.cols * opts.rows
  let trimmed := trimFrames framesPerPage inputFrames
  match coverSetup opts.cover opts.reverseFrames coverImg trimmed with
  | Except.error e => Except.error e
  | Except.ok (frames, coverImgIndex) =>
    let nFrames := frames.length
    let nPages := nFrames / framesPerPage
    Except.ok <| (List.range nPages).map fun pi =>
      let compIndex := if opts.reversePages then nPages - pi - 1 else pi
      { outputIndex := compIndex
        fileName := jpgName opts.identifier compIndex
        placements := layout pi nPages coverImgIndex renderBounds opts frames }

/-- `To4x6x3` (composite.go:154-189): forces `Rows = 3`, `Cols = 1` and
runs `renderPages` with the three-row layout closure. -/
def To4x6x3Model {α : Type} (opts : Options) (renderBounds : Rect)
    (coverImg : α) (inputFrames : List α) : Except String (List (PageOut α)) :=
  renderPagesModel layoutPage4x6x3 { opts with rows := 3, cols := 1 }
    renderBounds coverImg inputFrames

/-- `ToLetter` (composite.go:192-233): forces `Rows = 5`, `Cols = 2` and
runs `renderPages` with the grid layout closure. -/
def ToLetterModel {α : Type} (opts : Options) (renderBounds : Rect)
    (coverImg : α) (inputFrames : List α) : Except String (List (PageOut α)) :=
  renderPagesModel layoutPageLetter { opts with rows := 5, cols := 2 }
    renderBounds coverImg inputFrames

/-- The geometry computed by `compFrame` (composite.go:479-505) for one
placement: destination rectangle on the page canvas and the source
offset into the scaled image.  `scaledWidth` stands for the Go value
`int(float64(targetHeight)/float64(sourceHeight)*float64(sourceWidth))`,
taken as a parameter since it is the only float computation involved.
Go clamps `left` with `math.Max(left, left+(width-scaledWidth))` and the
source offset with `math.Max(0, scaledWidth-width)`; over `Nat`,
truncated subtraction realises exactly those clamps. -/
structure FrameDraw where
  dstMinX : Nat
  dstMinY : Nat
  dstMaxX : Nat
  dstMaxY : Nat
  srcX : Nat
  srcY : Nat
  scaledWidth : Nat
  scaledHeight : Nat
deriving DecidableEq, Repr

/-- The placement geometry of `compFrame` (composite.go:479-505). -/
def compFrameGeom (bounds : Rect) (scaledWidth : Nat) : FrameDraw :=
  let targetHeight := bounds.height
  let left := max bounds.left (bounds.left + bounds.width - scaledWidth)
  { dstMinX := left
    dstMinY := bounds.top
    dstMaxX := bounds.left + bounds.width
    dstMaxY := bounds.top + bounds.height
    srcX := scaledWidth - bounds.width
    srcY := 0
    scaledWidth := scaledWidth
    scaledHeight := targetHeight }

/-- Which decorations `compFrame` draws on a cell (composite.go:514-531):
the numeric-index and identifier debug labels are drawn iff the cell is
not the front cover, and the cover title text is drawn iff it is. -/
structure CellRender where
  drawsIndexLabel : Bool
  drawsIdentifierLabel : Bool
  drawsCoverTitle : Bool
deriving DecidableEq, Repr

/-- The decoration decision of `compFrame` (composite.go:514-531). -/
def compFrameCellRender {α : Type} (f : Frame α) : CellRender :=
  { drawsIndexLabel := !f.isFrontCover
    drawsIdentifierLabel := !f.isFrontCover
    drawsCoverTitle := f.isFrontCover }

/-- The two page-background colors. -/
inductive FillColor where
  | white
  | black
deriving DecidableEq, Repr

/-- The page background fill actually performed by `renderPages`
(composite.go:359): `draw.Draw(compImg, compImg.Bounds(), image.White,
image.ZP, draw.Src)` — unconditionally white.  `Options.BGColor` is
never read anywhere in `composite.go`. -/
def pageBackgroundFill (_opts : Options) : FillColor :=
  FillColor.white

/-- Modelled from the spec: the background-selection rule the
specification describes for `renderPages` (one of two fixed colors
chosen by the configured background-color value, silently falling back
to the dark option on any unrecognized value).  This rule is absent from
the current source, which ignores `BGColor`; the definition exists to
state the divergence. -/
def specBackgroundFill (bgColor : String) : FillColor :=
  if bgColor = "white" then FillColor.white else FillColor.black

/-- Pixel membership in a rectangle. -/
def Rect.containsPt (r : Rect) (x y : Nat) : Prop :=
  r.left ≤ x ∧ x < r.left + r.width ∧ r.top ≤ y ∧ y < r.top + r.height

/-- Two rectangles overlap when some pixel lies in both. -/
def Rect.overlaps (a b : Rect) : Prop :=
  ∃ x y, a.containsPt x y ∧ b.containsPt x y

/-- `inner` lies entirely within `outer` (edge coordinates contained). -/
def Rect.within (inner outer : Rect) : Prop :=
  outer.left ≤ inner.left ∧ inner.left + inner.width ≤ outer.left + outer.width ∧
  outer.top ≤ inner.top ∧ inner.top + inner.height ≤ outer.top + outer.height

/-- Concrete options used for scenario computations: three-row layout,
no reversal, no cover. -/
def defaultOpts : Options :=
  { rows := 3
    cols := 1
    bgColor := "white"
    identifier := "flip"
    reversePages := false
    reverseFrames := false
    cover := false }

/-- Printable rectangle of a 4x6 inch page at 300 DPI with zero margins. -/
def rb4x6 : Rect := { top := 0, left := 0, width := 1200, height := 1800 }

/-- Printable rectangle of a letter page at 300 DPI with zero margins. -/
def rbLetter : Rect := { top := 0, left := 0, width := 2550, height := 3300 }

/-! ### Helper lemmas -/

lemma flatMapRange_length {β : Type} (rows : Nat) (g : Nat → Nat → β) :
    ∀ cols : Nat,
      ((List.range cols).flatMap fun ci => (List.range rows).map fun ri => g ci ri).length
        = cols * rows := by
  intro cols
  induction cols with
  | zero => simp
  | succ c ih =>
    rw [List.range_succ, List.flatMap_append, List.length_append, ih]
    simp [Nat.succ_mul]

lemma flatMapRange_getElem {β : Type} (rows : Nat) (g : Nat → Nat → β)
    (ci ri : Nat) (hr : ri < rows) :
    ∀ cols : Nat, ci < cols →
      ((List.range cols).flatMap fun c => (List.range rows).map fun r => g c r)[ci * rows + ri]?
        = some (g ci ri) := by
  intro cols
  induction cols with
  | zero => intro h; exact absurd h (Nat.not_lt_zero ci)
  | succ c ih =>
    intro hc
    rw [List.range_succ, List.flatMap_append]
    rcases Nat.lt_or_ge ci c with h | h
    · rw [List.getElem?_append_left, ih h]
      rw [flatMapRange_length]
      have h1 : (ci + 1) * rows ≤ c * rows := Nat.mul_le_mul_right rows h
      have h2 : ci * rows + ri < (ci + 1) * rows := by
        rw [Nat.succ_mul]; omega
      omega
    · have hcc : ci = c := by omega
      subst hcc
      rw [List.getElem?_append_right, flatMapRange_length]
      · have hsub : ci * rows + ri - ci * rows = ri := by omega
        rw [hsub]
        simp [List.getElem?_range hr]
      · rw [flatMapRange_length]; omega

lemma trimFrames_length {α : Type} (k : Nat) (l : List α) :
    (trimFrames k l).length = k * (l.length / k) := by
  have hle : k * (l.length / k) ≤ l.length := Nat.mul_div_le l.length k
  simp [trimFrames, List.length_take, Nat.min_eq_left hle]

lemma layoutPage4x6x3_getElem {α : Type} (p n fc : Nat) (rb : Rect)
    (opts : Options) (frames : List α) (ri : Nat) (hr : ri < opts.rows) :
    (layoutPage4x6x3 p n fc rb opts frames)[ri]?
      = some (cell4x6x3 p n fc rb opts frames ri) := by
  simp [layoutPage4x6x3, List.getElem?_range hr]

lemma layoutPage4x6x3_mem {α : Type} (p n fc : Nat) (rb : Rect)
    (opts : Options) (frames : List α) (x : Frame α) :
    x ∈ layoutPage4x6x3 p n fc rb opts frames
      ↔ ∃ ri, ri < opts.rows ∧ x = cell4x6x3 p n fc rb opts frames ri := by
  simp [layoutPage4x6x3, List.mem_map, List.mem_range, eq_comm]

lemma layoutPageLetter_getElem {α : Type} (p n fc : Nat) (rb : Rect)
    (opts : Options) (frames : List α) (ci ri : Nat)
    (hr : ri < opts.rows) (hc : ci < opts.cols) :
    (layoutPageLetter p n fc rb opts frames)[ci * opts.rows + ri]?
      = some (cellLetter p n fc rb opts frames ci ri) := by
  simp only [layoutPageLetter]
  exact flatMapRange_getElem opts.rows _ ci ri hr opts.cols hc

lemma layoutPageLetter_mem {α : Type} (p n fc : Nat) (rb : Rect)
    (opts : Options) (frames : List α) (x : Frame α) :
    x ∈ layoutPageLetter p n fc rb opts frames
      ↔ ∃ ci ri, ci < opts.cols ∧ ri < opts.rows
          ∧ x = cellLetter p n fc rb opts frames ci ri := by
  simp only [layoutPageLetter, List.mem_flatMap, List.mem_map, List.mem_range]
  constructor
  · rintro ⟨ci, hci, ri, hri, hx⟩
    exact ⟨ci, ri, hci, hri, hx.symm⟩
  · rintro ⟨ci, ri, hci, hri, hx⟩
    exact ⟨ci, hci, ri, hri, hx.symm⟩

lemma cell4x6x3_index {α : Type} (p n fc : Nat) (rb : Rect)
    (opts : Options) (frames : List α) (ri : Nat) :
    (cell4x6x3 p n fc rb opts frames ri).index
      = if opts.reverseFrames then frames.length - (p + ri * n) - 1 else p + ri * n := rfl

lemma cell4x6x3_isFrontCover {α : Type} (p n fc : Nat) (rb : Rect)
    (opts : Options) (frames : List α) (ri : Nat) :
    (cell4x6x3 p n fc rb opts frames ri).isFrontCover
      = ((if opts.reverseFrames then frames.length - (p + ri * n) - 1 else p + ri * n)
          == fc) := rfl

lemma cell4x6x3_info {α : Type} (p n fc : Nat) (rb : Rect)
    (opts : Options) (frames : List α) (ri : Nat) :
    (cell4x6x3 p n fc rb opts frames ri).info
      = frames[if opts.reverseFrames then frames.length - (p + ri * n) - 1
          else p + ri * n]? := rfl

lemma cellLetter_index {α : Type} (p n fc : Nat) (rb : Rect)
    (opts : Options) (frames : List α) (ci ri : Nat) :
    (cellLetter p n fc rb opts frames ci ri).index
      = if opts.reverseFrames
          then frames.length - (p + (ri * n + ci * n * opts.rows)) - 1
          else p + (ri * n + ci * n * opts.rows) := rfl

lemma cellLetter_isFrontCover {α : Type} (p n fc : Nat) (rb : Rect)
    (opts : Options) (frames : List α) (ci ri : Nat) :
    (cellLetter p n fc rb opts frames ci ri).isFrontCover
      = ((if opts.reverseFrames
          then frames.length - (p + (ri * n + ci * n * opts.rows)) - 1
          else p + (ri * n + ci * n * opts.rows)) == fc) := rfl

lemma cellLetter_info {α : Type} (p n fc : Nat) (rb : Rect)
    (opts : Options) (frames : List α) (ci ri : Nat) :
    (cellLetter p n fc rb opts frames ci ri).info
      = frames[if opts.reverseFrames
          then frames.length - (p + (ri * n + ci * n * opts.rows)) - 1
          else p + (ri * n + ci * n * opts.rows)]? := rfl

lemma coverSetup_shape {α : Type} (c r : Bool) (img : α) (l : List α) :
    (l = [] ∧ c = true ∧ coverSetup c r img l = Except.error "index out of range")
    ∨ ∃ l2 i, coverSetup c r img l = Except.ok (l2, i) ∧ l2.length = l.length := by
  cases c with
  | false => exact Or.inr ⟨l, 0, rfl, rfl⟩
  | true =>
    cases l with
    | nil => exact Or.inl ⟨rfl, rfl, rfl⟩
    | cons a t =>
      refine Or.inr ⟨(a :: t).set (if r then (a :: t).length - 1 else 0) img,
        if r then (a :: t).length - 1 else 0, ?_, List.length_set ..⟩
      simp [coverSetup]

lemma renderPagesModel_ok_elim {α : Type}
    {layout : Nat → Nat → Nat → Rect → Options → List α → List (Frame α)}
    {opts : Options} {rb : Rect} {cov : α} {fs : List α} {pages : List (PageOut α)}
    (h : renderPagesModel layout opts rb cov fs = Except.ok pages) :
    ∃ frames2 coverIdx,
      coverSetup opts.cover opts.reverseFrames cov (trimFrames (opts.cols * opts.rows) fs)
        = Except.ok (frames2, coverIdx)
      ∧ pages = (List.range (frames2.length / (opts.cols * opts.rows))).map fun pi =>
          { outputIndex := if opts.reversePages
              then frames2.length / (opts.cols * opts.rows) - pi - 1 else pi
            fileName := jpgName opts.identifier (if opts.reversePages
              then frames2.length / (opts.cols * opts.rows) - pi - 1 else pi)
            placements := layout pi (frames2.length / (opts.cols * opts.rows)) coverIdx rb
              opts frames2 } := by
  simp only [renderPagesModel] at h
  cases hcs : coverSetup opts.cover opts.reverseFrames cov
      (trimFrames (opts.cols * opts.rows) fs) with
  | error e => rw [hcs] at h; exact Except.noConfusion h
  | ok pr =>
    obtain ⟨frames2, coverIdx⟩ := pr
    rw [hcs] at h
    exact ⟨frames2, coverIdx, rfl, (Except.ok.inj h).symm⟩

lemma renderPagesModel_ok_intro {α : Type}
    (layout : Nat → Nat → Nat → Rect → Options → List α → List (Frame α))
    (opts : Options) (rb : Rect) (cov : α) (fs : List α)
    (frames2 : List α) (coverIdx : Nat)
    (hcs : coverSetup opts.cover opts.reverseFrames cov
        (trimFrames (opts.cols * opts.rows) fs) = Except.ok (frames2, coverIdx)) :
    renderPagesModel layout opts rb cov fs
      = Except.ok ((List.range (frames2.length / (opts.cols * opts.rows))).map fun pi =>
          { outputIndex := if opts.reversePages
              then frames2.length / (opts.cols * opts.rows) - pi - 1 else pi
            fileName := jpgName opts.identifier (if opts.reversePages
              then frames2.length / (opts.cols * opts.rows) - pi - 1 else pi)
            placements := layout pi (frames2.length / (opts.cols * opts.rows)) coverIdx rb
              opts frames2 }) := by
  simp only [renderPagesModel]
  rw [hcs]

lemma renderPagesModel_placements_ext {α : Type}
    (layout : Nat → Nat → Nat → Rect → Options → List α → List (Frame α))
    (o₁ o₂ : Options) (rb : Rect) (cov : α) (fs : List α)
    (hcols : o₁.cols = o₂.cols) (hrows : o₁.rows = o₂.rows)
    (hcover : o₁.cover = o₂.cover) (hrf : o₁.reverseFrames = o₂.reverseFrames)
    (hlay : ∀ pi n ci frames, layout pi n ci rb o₁ frames = layout pi n ci rb o₂ frames) :
    (renderPagesModel layout o₁ rb cov fs).map (List.map PageOut.placements)
      = (renderPagesModel layout o₂ rb cov fs).map (List.map PageOut.placements) := by
  have hset : coverSetup o₁.cover o₁.reverseFrames cov (trimFrames (o₁.cols * o₁.rows) fs)
      = coverSetup o₂.cover o₂.reverseFrames cov (trimFrames (o₂.cols * o₂.rows) fs) := by
    rw [hcols, hrows, hcover, hrf]
  simp only [renderPagesModel, hset]
  cases coverSetup o₂.cover o₂.reverseFrames cov (trimFrames (o₂.cols * o₂.rows) fs) with
  | error e => rfl
  | ok pr =>
    obtain ⟨frames2, coverIdx⟩ := pr
    simp [Except.map, List.map_map, Function.comp, hcols, hrows, hlay]

lemma renderPagesModel_outputs_ext {α : Type}
    (layout₁ layout₂ : Nat → Nat → Nat → Rect → Options → List α → List (Frame α))
    (o₁ o₂ : Options) (rb : Rect) (cov : α) (fs : List α)
    (hcols : o₁.cols = o₂.cols) (hrows : o₁.rows = o₂.rows)
    (hcover : o₁.cover = o₂.cover) (hrp : o₁.reversePages = o₂.reversePages)
    (hid : o₁.identifier = o₂.identifier) :
    (renderPagesModel layout₁ o₁ rb cov fs).map
        (List.map fun pg => (pg.outputIndex, pg.fileName))
      = (renderPagesModel layout₂ o₂ rb cov fs).map
        (List.map fun pg => (pg.outputIndex, pg.fileName)) := by
  have hTrim : trimFrames (o₁.cols * o₁.rows) fs = trimFrames (o₂.cols * o₂.rows) fs := by
    rw [hcols, hrows]
  simp only [renderPagesModel]
  rcases coverSetup_shape o₁.cover o₁.reverseFrames cov (trimFrames (o₁.cols * o₁.rows) fs)
    with ⟨hnil, hc, herr⟩ | ⟨l2a, ia, hok1, hlen1⟩
  · have herr2 : coverSetup o₂.cover o₂.reverseFrames cov
        (trimFrames (o₂.cols * o₂.rows) fs) = Except.error "index out of range" := by
      rw [← hTrim, hnil, ← hcover, hc]
      rfl
    rw [herr, herr2]
  · rcases coverSetup_shape o₂.cover o₂.reverseFrames cov (trimFrames (o₂.cols * o₂.rows) fs)
      with ⟨hnil2, hc2, herr2⟩ | ⟨l2b, ib, hok2, hlen2⟩
    · exfalso
      rw [← hTrim] at hnil2
      rw [hnil2, hcover, hc2] at hok1
      exact Except.noConfusion ((rfl : coverSetup true o₁.reverseFrames cov ([] : List α)
        = Except.error "index out of range") ▸ hok1)
    · rw [hok1, hok2]
      have hn : l2a.length / (o₁.cols * o₁.rows) = l2b.length / (o₂.cols * o₂.rows) := by
        rw [hlen1, hlen2, hTrim, hcols, hrows]
      simp [Except.map, List.map_map, Function.comp, hn, hrp, hid]

lemma lt_length_of_getElem_some {α : Type} {l : List α} {i : Nat} {a : α}
    (h : l[i]? = some a) : i < l.length := by
  by_contra hn
  rw [List.getElem?_eq_none (by omega)] at h
  exact Option.noConfusion h

lemma to4x6x3_run (opts : Options) (rb : Rect) (cov : Nat) (inp : List Nat)
    (frames2 : List Nat) (cIdx : Nat)
    (hcs : coverSetup opts.cover opts.reverseFrames cov (trimFrames 3 inp)
        = Except.ok (frames2, cIdx))
    (hf2len : frames2.length = 3 * (inp.length / 3)) :
    To4x6x3Model opts rb cov inp
      = Except.ok ((List.range (inp.length / 3)).map fun pi =>
          { outputIndex := if opts.reversePages then inp.length / 3 - pi - 1 else pi
            fileName := jpgName opts.identifier
              (if opts.reversePages then inp.length / 3 - pi - 1 else pi)
            placements := layoutPage4x6x3 pi (inp.length / 3) cIdx rb
              { opts with rows := 3, cols := 1 } frames2 }) := by
  have h0 := renderPagesModel_ok_intro layoutPage4x6x3 { opts with rows := 3, cols := 1 }
    rb cov inp frames2 cIdx hcs
  have hnp : frames2.length / (({ opts with rows := 3, cols := 1 } : Options).cols
      * ({ opts with rows := 3, cols := 1 } : Options).rows) = inp.length / 3 := by
    show frames2.length / (1 * 3) = inp.length / 3
    omega
  simp only [hnp] at h0
  exact h0

lemma to4x6x3_pages_mem (opts : Options) (rb : Rect) (n cIdx : Nat)
    (frames2 : List Nat) (x : Frame Nat) :
    (∃ pg ∈ (List.range n).map fun pi =>
        ({ outputIndex := if opts.reversePages then n - pi - 1 else pi
           fileName := jpgName opts.identifier
             (if opts.reversePages then n - pi - 1 else pi)
           placements := layoutPage4x6x3 pi n cIdx rb
             { opts with rows := 3, cols := 1 } frames2 } : PageOut Nat),
      x ∈ pg.placements)
    ↔ ∃ pi, pi < n ∧ ∃ ri, ri < 3 ∧
        x = cell4x6x3 pi n cIdx rb { opts with rows := 3, cols := 1 } frames2 ri := by
  constructor
  · rintro ⟨pg, hpg, hx⟩
    obtain ⟨pi, hpi, rfl⟩ := List.mem_map.1 hpg
    rw [List.mem_range] at hpi
    replace hx : x ∈ layoutPage4x6x3 pi n cIdx rb
        { opts with rows := 3, cols := 1 } frames2 := hx
    rw [layoutPage4x6x3_mem] at hx
    obtain ⟨ri, hri, rfl⟩ := hx
    exact ⟨pi, hpi, ri, hri, rfl⟩
  · rintro ⟨pi, hpi, ri, hri, rfl⟩
    refine ⟨_, List.mem_map.2 ⟨pi, List.mem_range.2 hpi, rfl⟩, ?_⟩
    show _ ∈ layoutPage4x6x3 pi n cIdx rb { opts with rows := 3, cols := 1 } frames2
    rw [layoutPage4x6x3_mem]
    exact ⟨ri, hri, rfl⟩

lemma toLetter_run (opts : Options) (rb : Rect) (cov : Nat) (inp : List Nat)
    (frames2 : List Nat) (cIdx : Nat)
    (hcs : coverSetup opts.cover opts.reverseFrames cov (trimFrames 10 inp)
        = Except.ok (frames2, cIdx))
    (hf2len : frames2.length = 10 * (inp.length / 10)) :
    ToLetterModel opts rb cov inp
      = Except.ok ((List.range (inp.length / 10)).map fun pi =>
          { outputIndex := if opts.reversePages then inp.length / 10 - pi - 1 else pi
            fileName := jpgName opts.identifier
              (if opts.reversePages then inp.length / 10 - pi - 1 else pi)
            placements := layoutPageLetter pi (inp.length / 10) cIdx rb
              { opts with rows := 5, cols := 2 } frames2 }) := by
  have h0 := renderPagesModel_ok_intro layoutPageLetter { opts with rows := 5, cols := 2 }
    rb cov inp frames2 cIdx hcs
  have hnp : frames2.length / (({ opts with rows := 5, cols := 2 } : Options).cols
      * ({ opts with rows := 5, cols := 2 } : Options).rows) = inp.length / 10 := by
    show frames2.length / (2 * 5) = inp.length / 10
    omega
  simp only [hnp] at h0
  exact h0

lemma toLetter_pages_mem (opts : Options) (rb : Rect) (n cIdx : Nat)
    (frames2 : List Nat) (x : Frame Nat) :
    (∃ pg ∈ (List.range n).map fun pi =>
        ({ outputIndex := if opts.reversePages then n - pi - 1 else pi
           fileName := jpgName opts.identifier
             (if opts.reversePages then n - pi - 1 else pi)
           placements := layoutPageLetter pi n cIdx rb
             { opts with rows := 5, cols := 2 } frames2 } : PageOut Nat),
      x ∈ pg.placements)
    ↔ ∃ pi, pi < n ∧ ∃ ci ri, ci < 2 ∧ ri < 5 ∧
        x = cellLetter pi n cIdx rb { opts with rows := 5, cols := 2 } frames2 ci ri := by
  constructor
  · rintro ⟨pg, hpg, hx⟩
    obtain ⟨pi, hpi, rfl⟩ := List.mem_map.1 hpg
    rw [List.mem_range] at hpi
    replace hx : x ∈ layoutPageLetter pi n cIdx rb
        { opts with rows := 5, cols := 2 } frames2 := hx
    rw [layoutPageLetter_mem] at hx
    obtain ⟨ci, ri, hci, hri, rfl⟩ := hx
    exact ⟨pi, hpi, ci, ri, hci, hri, rfl⟩
  · rintro ⟨pi, hpi, ci, ri, hci, hri, rfl⟩
    refine ⟨_, List.mem_map.2 ⟨pi, List.mem_range.2 hpi, rfl⟩, ?_⟩
    show _ ∈ layoutPageLetter pi n cIdx rb { opts with rows := 5, cols := 2 } frames2
    rw [layoutPageLetter_mem]
    exact ⟨ci, ri, hci, hri, rfl⟩

/-! ### Claims -/

/-- C3: for every input frame list of length `f` and capacity `k`,
trimming keeps exactly the first `k*(f/k)` frames (it is the take of
that length, agreeing with the input at every kept position) and
discards the trailing `f mod k` frames; the trimmed length is a multiple
of `k` and at most `k-1` frames are discarded. -/
theorem c3_trim_invariant {α : Type} (frames : List α) (k : Nat) (hk : 0 < k) :
    trimFrames k frames = frames.take (k * (frames.length / k))
    ∧ (trimFrames k frames).length = k * (frames.length / k)
    ∧ (∀ i, i < k * (frames.length / k) → (trimFrames k frames)[i]? = frames[i]?)
    ∧ frames.length - (trimFrames k frames).length = frames.length % k
    ∧ (trimFrames k frames).length % k = 0
    ∧ frames.length % k ≤ k - 1 := by
  have hlen := trimFrames_length k frames
  have hdm := Nat.div_add_mod frames.length k
  have hmod : frames.length % k < k := Nat.mod_lt _ hk
  refine ⟨rfl, hlen, ?_, by omega, ?_, by omega⟩
  · intro i hi
    exact List.getElem?_take_of_lt hi
  · rw [hlen]
    exact Nat.mul_mod_right k _

/-- C3 witness: 5 frames at capacity 3 keep the first 3 and drop 2. -/
theorem c3_trim_invariant_check :
    (trimFrames 3 (List.range 5)).length = 3
    ∧ (List.range 5).length - (trimFrames 3 (List.range 5)).length = 2 := by
  have h := c3_trim_invariant (List.range 5) 3 (by norm_num)
  exact ⟨by simpa using h.2.1, by simpa using h.2.2.2.1⟩

/-- C6: the placement geometry of `compFrame` scales the frame to the
cell height exactly; when the scaled width exceeds the cell width the
destination is the full cell (right-aligned) and exactly
`scaledWidth - width` source columns are skipped on the left, keeping
the rightmost `width` columns; when it is narrower the image sits flush
against the cell's right edge with a `width - scaledWidth` gap on the
left and no cropping. -/
theorem c6_scale_fit (bounds : Rect) (scaledWidth : Nat) :
    (compFrameGeom bounds scaledWidth).scaledHeight = bounds.height
    ∧ (compFrameGeom bounds scaledWidth).dstMinY = bounds.top
    ∧ (compFrameGeom bounds scaledWidth).dstMaxY = bounds.top + bounds.height
    ∧ (compFrameGeom bounds scaledWidth).dstMaxX = bounds.left + bounds.width
    ∧ (compFrameGeom bounds scaledWidth).srcY = 0
    ∧ (bounds.width < scaledWidth →
        (compFrameGeom bounds scaledWidth).dstMinX = bounds.left
        ∧ (compFrameGeom bounds scaledWidth).srcX = scaledWidth - bounds.width
        ∧ (compFrameGeom bounds scaledWidth).srcX + bounds.width = scaledWidth)
    ∧ (scaledWidth ≤ bounds.width →
        (compFrameGeom bounds scaledWidth).srcX = 0
        ∧ (compFrameGeom bounds scaledWidth).dstMinX
            = bounds.left + (bounds.width - scaledWidth)
        ∧ (compFrameGeom bounds scaledWidth).dstMinX + scaledWidth
            = bounds.left + bounds.width) := by
  refine ⟨rfl, rfl, rfl, rfl, rfl, fun h => ⟨?_, rfl, ?_⟩, fun h => ⟨?_, ?_, ?_⟩⟩
  · show max bounds.left (bounds.left + bounds.width - scaledWidth) = bounds.left
    omega
  · show (scaledWidth - bounds.width) + bounds.width = scaledWidth
    omega
  · show scaledWidth - bounds.width = 0
    omega
  · show max bounds.left (bounds.left + bounds.width - scaledWidth)
        = bounds.left + (bounds.width - scaledWidth)
    omega
  · show max bounds.left (bounds.left + bounds.width - scaledWidth) + scaledWidth
        = bounds.left + bounds.width
    omega

/-- C6 witness: a 100-wide, 50-high cell with scaled widths 120 (crop
20 from the left) and 80 (gap of 20 on the left, flush right). -/
theorem c6_scale_fit_check :
    ((compFrameGeom ⟨10, 20, 100, 50⟩ 120).dstMinX = 20
      ∧ (compFrameGeom ⟨10, 20, 100, 50⟩ 120).srcX = 20
      ∧ (compFrameGeom ⟨10, 20, 100, 50⟩ 120).srcX + 100 = 120)
    ∧ ((compFrameGeom ⟨10, 20, 100, 50⟩ 80).srcX = 0
      ∧ (compFrameGeom ⟨10, 20, 100, 50⟩ 80).dstMinX = 20 + (100 - 80)
      ∧ (compFrameGeom ⟨10, 20, 100, 50⟩ 80).dstMinX + 80 = 20 + 100) :=
  ⟨(c6_scale_fit ⟨10, 20, 100, 50⟩ 120).2.2.2.2.2.1 (by norm_num),
   (c6_scale_fit ⟨10, 20, 100, 50⟩ 80).2.2.2.2.2.2 (by norm_num)⟩

/-- C8: the page background drawn by `renderPages` is white regardless
of the configured background-color value — `Options.BGColor` is never
consulted — so with `BGColor = "black"` the page is still filled white,
diverging from the documented selected-color-with-dark-fallback rule. -/
theorem c8_background_ignored :
    pageBackgroundFill { defaultOpts with bgColor := "black" } = FillColor.white
    ∧ specBackgroundFill "black" = FillColor.black
    ∧ pageBackgroundFill { defaultOpts with bgColor := "black" }
        ≠ specBackgroundFill "black" := by
  refine ⟨rfl, by decide, ?_⟩
  intro h
  rw [show specBackgroundFill "black" = FillColor.black from by decide] at h
  exact FillColor.noConfusion h

/-- C9 counterexample: a directory with 2 frames (capacity 3, cover
disabled) makes the run return success with zero pages; it does not fail
with any error, let alone an InsufficientFramesError. -/
theorem c9_insufficient_frames_counterexample :
    To4x6x3Model defaultOpts rb4x6 999 ([0, 1] : List Nat) = Except.ok []
    ∧ ∀ e, To4x6x3Model defaultOpts rb4x6 999 ([0, 1] : List Nat) ≠ Except.error e := by
  have h : To4x6x3Model defaultOpts rb4x6 999 ([0, 1] : List Nat) = Except.ok [] := rfl
  refine ⟨h, fun e he => ?_⟩
  rw [h] at he
  exact Except.noConfusion he

/-- C9 amended: with fewer frames than one page requires the trimmed
list is empty and zero pages are rendered; with the cover disabled the
run returns success (no error of any kind), and with the cover enabled
it fails by indexing entry 0 of the empty trimmed list (a runtime panic
in Go), not by a named InsufficientFramesError. -/
theorem c9_insufficient_frames_amended {α : Type}
    (layout : Nat → Nat → Nat → Rect → Options → List α → List (Frame α))
    (opts : Options) (rb : Rect) (coverImg : α) (inputFrames : List α)
    (hlt : inputFrames.length < opts.cols * opts.rows) :
    trimFrames (opts.cols * opts.rows) inputFrames = []
    ∧ (opts.cover = false →
        renderPagesModel layout opts rb coverImg inputFrames = Except.ok [])
    ∧ (opts.cover = true →
        renderPagesModel layout opts rb coverImg inputFrames
          = Except.error "index out of range") := by
  have hdiv : inputFrames.length / (opts.cols * opts.rows) = 0 := Nat.div_eq_of_lt hlt
  have htrim : trimFrames (opts.cols * opts.rows) inputFrames = [] := by
    simp [trimFrames, hdiv]
  refine ⟨htrim, ?_, ?_⟩ <;> intro hc <;>
    simp [renderPagesModel, coverSetup, hc, htrim]

/-- C9 amended witness: 2 frames at capacity 3, both cover settings. -/
theorem c9_insufficient_frames_amended_check :
    trimFrames (1 * 3) ([0, 1] : List Nat) = []
    ∧ renderPagesModel layoutPage4x6x3 { defaultOpts with rows := 3, cols := 1 }
        rb4x6 999 ([0, 1] : List Nat) = Except.ok []
    ∧ renderPagesModel layoutPage4x6x3
        { defaultOpts with rows := 3, cols := 1, cover := true }
        rb4x6 999 ([0, 1] : List Nat) = Except.error "index out of range" := by
  have h1 := c9_insufficient_frames_amended layoutPage4x6x3
    { defaultOpts with rows := 3, cols := 1 } rb4x6 999 ([0, 1] : List Nat) (by norm_num)
  have h2 := c9_insufficient_frames_amended layoutPage4x6x3
    { defaultOpts with rows := 3, cols := 1, cover := true } rb4x6 999 ([0, 1] : List Nat)
    (by norm_num)
  exact ⟨h1.1, h1.2.1 rfl, h2.2.2 rfl⟩

/-- C1: in the three-row single-column layout with the frame-reversal
flag unset, the placement in row `r` of page `p` carries frame index
`p + r*n`; for each fixed row `r` the indices placed in that row over
all pages form exactly the contiguous range from `r*n` to `r*n + n`;
and the 42-frame scenario yields 14 pages with page 0 holding indices
0, 14, 28 and page 13 holding 13, 27, 41. -/
theorem c1_three_row_interlace
    (opts : Options) (hrows : opts.rows = 3) (hrev : opts.reverseFrames = false)
    (nPages p r frontCoverIndex : Nat) (_hp : p < nPages) (hr : r < 3)
    (rb : Rect) (frames : List Nat) :
    ((layoutPage4x6x3 p nPages frontCoverIndex rb opts frames)[r]?).map Frame.index
      = some (p + r * nPages)
    ∧ (∀ k, (∃ q, q < nPages ∧
          ((layoutPage4x6x3 q nPages frontCoverIndex rb opts frames)[r]?).map Frame.index
            = some k)
        ↔ r * nPages ≤ k ∧ k < r * nPages + nPages)
    ∧ (To4x6x3Model defaultOpts rb4x6 999 (List.range 42)).map List.length = Except.ok 14
    ∧ (To4x6x3Model defaultOpts rb4x6 999 (List.range 42)).map
        (fun pgs => (pgs[0]?).map fun pg => pg.placements.map Frame.index)
        = Except.ok (some [0, 14, 28])
    ∧ (To4x6x3Model defaultOpts rb4x6 999 (List.range 42)).map
        (fun pgs => (pgs[13]?).map fun pg => pg.placements.map Frame.index)
        = Except.ok (some [13, 27, 41]) := by
  have hidx : ∀ q, ((layoutPage4x6x3 q nPages frontCoverIndex rb opts frames)[r]?).map
      Frame.index = some (q + r * nPages) := by
    intro q
    rw [layoutPage4x6x3_getElem q nPages frontCoverIndex rb opts frames r (by omega),
      Option.map_some', cell4x6x3_index, hrev]
    simp
  refine ⟨hidx p, ?_, rfl, rfl, rfl⟩
  intro k
  constructor
  · rintro ⟨q, hq, hval⟩
    rw [hidx q] at hval
    have hk : q + r * nPages = k := Option.some.inj hval
    omega
  · rintro ⟨h1, h2⟩
    refine ⟨k - r * nPages, by omega, ?_⟩
    rw [hidx (k - r * nPages)]
    congr 1
    omega

/-- C1 witness: 14 pages of 42 frames, page 0 row 1 carries index 14,
and row 1 collects exactly the indices 14 through 27. -/
theorem c1_three_row_interlace_check :
    ((layoutPage4x6x3 0 14 0 rb4x6 defaultOpts (List.range 42))[1]?).map Frame.index
      = some 14
    ∧ (∃ q, q < 14 ∧
        ((layoutPage4x6x3 q 14 0 rb4x6 defaultOpts (List.range 42))[1]?).map Frame.index
          = some 20) := by
  have h := c1_three_row_interlace defaultOpts rfl rfl 14 0 1 0 (by norm_num) (by norm_num)
    rb4x6 (List.range 42)
  exact ⟨by simpa using h.1, (h.2.1 20).2 (by norm_num)⟩

/-- C2: in the rows-by-cols grid layout the placement at column `c`,
row `r` of page `p` (list position `c*rows + r`) carries frame index
`p + r*n + c*n*rows` when the frame-reversal flag is unset, and
`totalFrames - that - 1` when it is set; the 20-frame 5-by-2 scenario
gives 2 pages, with page 0 cell (row 0, col 0) holding frame 0 and cell
(row 0, col 1) holding frame 10. -/
theorem c2_grid_interlace
    (opts : Options) (nPages p ri ci frontCoverIndex : Nat) (rb : Rect)
    (frames : List Nat) (hr : ri < opts.rows) (hc : ci < opts.cols) :
    (opts.reverseFrames = false →
      ((layoutPageLetter p nPages frontCoverIndex rb opts frames)[ci * opts.rows + ri]?).map
          Frame.index = some (p + ri * nPages + ci * nPages * opts.rows))
    ∧ (opts.reverseFrames = true →
      ((layoutPageLetter p nPages frontCoverIndex rb opts frames)[ci * opts.rows + ri]?).map
          Frame.index
        = some (frames.length - (p + ri * nPages + ci * nPages * opts.rows) - 1))
    ∧ (ToLetterModel defaultOpts rbLetter 999 (List.range 20)).map List.length = Except.ok 2
    ∧ (ToLetterModel defaultOpts rbLetter 999 (List.range 20)).map
        (fun pgs => (pgs[0]?).map fun pg =>
          ((pg.placements[0]?).map Frame.index, (pg.placements[5]?).map Frame.index))
        = Except.ok (some (some 0, some 10)) := by
  have hcell := layoutPageLetter_getElem p nPages frontCoverIndex rb opts frames ci ri hr hc
  refine ⟨?_, ?_, rfl, rfl⟩ <;> intro hrev <;>
    rw [hcell, Option.map_some', cellLetter_index, hrev] <;> simp <;> omega

/-- C2 witness: with 2 pages on the 5-by-2 grid, page 1 cell (row 2,
col 1) carries frame index `1 + 2*2 + 1*2*5 = 15` unreversed, and with
20 frames reversed it carries `20 - 15 - 1 = 4`. -/
theorem c2_grid_interlace_check :
    ((layoutPageLetter 1 2 0 rbLetter { defaultOpts with rows := 5, cols := 2 }
        (List.range 20))[1 * 5 + 2]?).map Frame.index = some (1 + 2 * 2 + 1 * 2 * 5)
    ∧ ((layoutPageLetter 1 2 0 rbLetter
        { defaultOpts with rows := 5, cols := 2, reverseFrames := true }
        (List.range 20))[1 * 5 + 2]?).map Frame.index
      = some ((List.range 20).length - (1 + 2 * 2 + 1 * 2 * 5) - 1) :=
  ⟨(c2_grid_interlace { defaultOpts with rows := 5, cols := 2 } 2 1 2 1 0 rbLetter
      (List.range 20) (by norm_num) (by norm_num)).1 rfl,
   (c2_grid_interlace { defaultOpts with rows := 5, cols := 2, reverseFrames := true }
      2 1 2 1 0 rbLetter (List.range 20) (by norm_num) (by norm_num)).2.1 rfl⟩

/-- C4: setting the `reversePages` flag to any value leaves every
page's frame-to-cell placements unchanged (in both layouts); setting
the `reverseFrames` flag to any value leaves every page's output index
and output file name unchanged; and on a successful run page `p` is
written to output index `totalPages - p - 1` when `reversePages` is set
and `p` otherwise, with file name `comp-<identifier>-<NNN>.jpg`. -/
theorem c4_reversal_independence (opts : Options) (rb : Rect) (cov : Nat)
    (frames : List Nat) :
    (∀ b : Bool,
      (To4x6x3Model { opts with reversePages := b } rb cov frames).map
          (List.map PageOut.placements)
        = (To4x6x3Model opts rb cov frames).map (List.map PageOut.placements)
      ∧ (ToLetterModel { opts with reversePages := b } rb cov frames).map
          (List.map PageOut.placements)
        = (ToLetterModel opts rb cov frames).map (List.map PageOut.placements))
    ∧ (∀ b : Bool,
      (To4x6x3Model { opts with reverseFrames := b } rb cov frames).map
          (List.map fun pg => (pg.outputIndex, pg.fileName))
        = (To4x6x3Model opts rb cov frames).map
          (List.map fun pg => (pg.outputIndex, pg.fileName))
      ∧ (ToLetterModel { opts with reverseFrames := b } rb cov frames).map
          (List.map fun pg => (pg.outputIndex, pg.fileName))
        = (ToLetterModel opts rb cov frames).map
          (List.map fun pg => (pg.outputIndex, pg.fileName)))
    ∧ (∀ pages, To4x6x3Model opts rb cov frames = Except.ok pages →
        ∀ pi, pi < pages.length →
          (pages[pi]?).map PageOut.outputIndex
            = some (if opts.reversePages then pages.length - pi - 1 else pi)
          ∧ (pages[pi]?).map PageOut.fileName
            = some (jpgName opts.identifier
                (if opts.reversePages then pages.length - pi - 1 else pi))) := by
  refine ⟨?_, ?_, ?_⟩
  · intro b
    exact ⟨renderPagesModel_placements_ext layoutPage4x6x3
        { opts with reversePages := b, rows := 3, cols := 1 }
        { opts with rows := 3, cols := 1 } rb cov frames rfl rfl rfl rfl
        (fun _ _ _ _ => rfl),
      renderPagesModel_placements_ext layoutPageLetter
        { opts with reversePages := b, rows := 5, cols := 2 }
        { opts with rows := 5, cols := 2 } rb cov frames rfl rfl rfl rfl
        (fun _ _ _ _ => rfl)⟩
  · intro b
    exact ⟨renderPagesModel_outputs_ext layoutPage4x6x3 layoutPage4x6x3
        { opts with reverseFrames := b, rows := 3, cols := 1 }
        { opts with rows := 3, cols := 1 } rb cov frames rfl rfl rfl rfl rfl,
      renderPagesModel_outputs_ext layoutPageLetter layoutPageLetter
        { opts with reverseFrames := b, rows := 5, cols := 2 }
        { opts with rows := 5, cols := 2 } rb cov frames rfl rfl rfl rfl rfl⟩
  · intro pages hok pi hpi
    obtain ⟨frames2, coverIdx, hcs, hpages⟩ := renderPagesModel_ok_elim hok
    subst hpages
    rw [List.length_map, List.length_range] at hpi
    have hpi3 : pi < frames2.length / 3 := by simpa using hpi
    constructor <;>
      simp [List.getElem?_map, List.length_map, List.length_range,
        List.getElem?_range hpi3]

/-- C4 witness: a successful 6-frame run where page 1 of 2 receives
output index 0 under `reversePages = true`. -/
theorem c4_reversal_independence_check :
    ∃ pages, To4x6x3Model { defaultOpts with reversePages := true } rb4x6 999
        (List.range 6) = Except.ok pages
      ∧ 1 < pages.length
      ∧ (pages[1]?).map PageOut.outputIndex = some (pages.length - 1 - 1) := by
  cases hok : To4x6x3Model { defaultOpts with reversePages := true } rb4x6 999
      (List.range 6) with
  | error e =>
    have hcontra : To4x6x3Model { defaultOpts with reversePages := true } rb4x6 999
        (List.range 6)
        = Except.ok [⟨1, jpgName "flip" 1,
            layoutPage4x6x3 0 2 0 rb4x6
              { defaultOpts with reversePages := true, rows := 3, cols := 1 }
              (List.range 6)⟩,
          ⟨0, jpgName "flip" 0,
            layoutPage4x6x3 1 2 0 rb4x6
              { defaultOpts with reversePages := true, rows := 3, cols := 1 }
              (List.range 6)⟩] := rfl
    rw [hok] at hcontra
    exact Except.noConfusion hcontra
  | ok pages =>
    have hlen : pages.length = 2 := by
      have h2 : (Except.ok pages : Except String (List (PageOut Nat))).map List.length
          = Except.ok 2 := by
        rw [← hok]
        rfl
      simpa [Except.map] using h2
    have h := (c4_reversal_independence { defaultOpts with reversePages := true }
      rb4x6 999 (List.range 6)).2.2 pages hok 1 (by omega)
    exact ⟨pages, rfl, by omega, by simpa using h.1⟩

/-- C7: each page layout produces exactly rows*cols placements (3 rows
for the three-row layout, and in a full run 3 and 10 placements per
page respectively); every placement rectangle lies within the printable
rectangle; and no two placements of the same page overlap. -/
theorem c7_placement_invariant (opts : Options) (p n fc : Nat) (rb : Rect)
    (frames : List Nat) (cov : Nat) (fs : List Nat) :
    ((layoutPage4x6x3 p n fc rb opts frames).length = opts.rows)
    ∧ ((layoutPageLetter p n fc rb opts frames).length = opts.rows * opts.cols)
    ∧ (∀ pages, To4x6x3Model opts rb cov fs = Except.ok pages →
        ∀ pg ∈ pages, pg.placements.length = 3)
    ∧ (∀ pages, ToLetterModel opts rb cov fs = Except.ok pages →
        ∀ pg ∈ pages, pg.placements.length = 10)
    ∧ (∀ f ∈ layoutPage4x6x3 p n fc rb opts frames, Rect.within f.bounds rb)
    ∧ (∀ f ∈ layoutPageLetter p n fc rb opts frames, Rect.within f.bounds rb)
    ∧ (∀ (i j : Nat) (a b : Frame Nat), i ≠ j →
        (layoutPage4x6x3 p n fc rb opts frames)[i]? = some a →
        (layoutPage4x6x3 p n fc rb opts frames)[j]? = some b →
        ¬ Rect.overlaps a.bounds b.bounds)
    ∧ (∀ (i j : Nat) (a b : Frame Nat), i ≠ j →
        (layoutPageLetter p n fc rb opts frames)[i]? = some a →
        (layoutPageLetter p n fc rb opts frames)[j]? = some b →
        ¬ Rect.overlaps a.bounds b.bounds) := by
  have hlen1 : (layoutPage4x6x3 p n fc rb opts frames).length = opts.rows := by
    simp [layoutPage4x6x3]
  have hlen2 : (layoutPageLetter p n fc rb opts frames).length
      = opts.rows * opts.cols := by
    simp only [layoutPageLetter]
    rw [flatMapRange_length]
    exact Nat.mul_comm _ _
  refine ⟨hlen1, hlen2, ?_, ?_, ?_, ?_, ?_, ?_⟩
  · intro pages hok pg hpg
    obtain ⟨frames2, coverIdx, hcs, hpages⟩ := renderPagesModel_ok_elim hok
    subst hpages
    obtain ⟨pi, hpi, rfl⟩ := List.mem_map.1 hpg
    simp [layoutPage4x6x3]
  · intro pages hok pg hpg
    obtain ⟨frames2, coverIdx, hcs, hpages⟩ := renderPagesModel_ok_elim hok
    subst hpages
    obtain ⟨pi, hpi, rfl⟩ := List.mem_map.1 hpg
    simp only [layoutPageLetter]
    rw [flatMapRange_length]
  · intro f hf
    rw [layoutPage4x6x3_mem] at hf
    obtain ⟨ri, hri, rfl⟩ := hf
    have h1 : rb.height / opts.rows * (ri + 1) ≤ rb.height / opts.rows * opts.rows :=
      Nat.mul_le_mul_left _ hri
    have h2 : rb.height / opts.rows * opts.rows ≤ rb.height := by
      rw [Nat.mul_comm]
      exact Nat.mul_div_le rb.height opts.rows
    have h3 : rb.height / opts.rows * (ri + 1)
        = rb.height / opts.rows * ri + rb.height / opts.rows := Nat.mul_succ _ _
    refine ⟨Nat.le_refl _, Nat.le_refl _, Nat.le_add_right _ _, ?_⟩
    show rb.top + rb.height / opts.rows * ri + rb.height / opts.rows
        ≤ rb.top + rb.height
    omega
  · intro f hf
    rw [layoutPageLetter_mem] at hf
    obtain ⟨ci, ri, hci, hri, rfl⟩ := hf
    have h1 : rb.height / opts.rows * (ri + 1) ≤ rb.height / opts.rows * opts.rows :=
      Nat.mul_le_mul_left _ hri
    have h2 : rb.height / opts.rows * opts.rows ≤ rb.height := by
      rw [Nat.mul_comm]
      exact Nat.mul_div_le rb.height opts.rows
    have h3 : rb.height / opts.rows * (ri + 1)
        = rb.height / opts.rows * ri + rb.height / opts.rows := Nat.mul_succ _ _
    have h4 : rb.width / opts.cols * (ci + 1) ≤ rb.width / opts.cols * opts.cols :=
      Nat.mul_le_mul_left _ hci
    have h5 : rb.width / opts.cols * opts.cols ≤ rb.width := by
      rw [Nat.mul_comm]
      exact Nat.mul_div_le rb.width opts.cols
    have h6 : rb.width / opts.cols * (ci + 1)
        = rb.width / opts.cols * ci + rb.width / opts.cols := Nat.mul_succ _ _
    refine ⟨?_, ?_, Nat.le_add_right _ _, ?_⟩
    · show rb.left ≤ rb.left + ci * (rb.width / opts.cols)
      omega
    · show rb.left + ci * (rb.width / opts.cols) + rb.width / opts.cols
          ≤ rb.left + rb.width
      have hc : ci * (rb.width / opts.cols) = rb.width / opts.cols * ci :=
        Nat.mul_comm _ _
      omega
    · show rb.top + rb.height / opts.rows * ri + rb.height / opts.rows
          ≤ rb.top + rb.height
      omega
  · intro i j a b hij hgi hgj
    have hilt : i < opts.rows := by
      have := lt_length_of_getElem_some hgi
      omega
    have hjlt : j < opts.rows := by
      have := lt_length_of_getElem_some hgj
      omega
    rw [layoutPage4x6x3_getElem p n fc rb opts frames i hilt] at hgi
    rw [layoutPage4x6x3_getElem p n fc rb opts frames j hjlt] at hgj
    obtain rfl := (Option.some.inj hgi).symm
    obtain rfl := (Option.some.inj hgj).symm
    rintro ⟨x, y, ⟨_, _, hA3, hA4⟩, ⟨_, _, hB3, hB4⟩⟩
    simp only [cell4x6x3] at hA3 hA4 hB3 hB4
    rcases Nat.lt_or_ge i j with h | h
    · have hstep : rb.height / opts.rows * (i + 1) ≤ rb.height / opts.rows * j :=
        Nat.mul_le_mul_left _ h
      have hsucc : rb.height / opts.rows * (i + 1)
          = rb.height / opts.rows * i + rb.height / opts.rows := Nat.mul_succ _ _
      omega
    · have hji : j < i := by omega
      have hstep : rb.height / opts.rows * (j + 1) ≤ rb.height / opts.rows * i :=
        Nat.mul_le_mul_left _ hji
      have hsucc : rb.height / opts.rows * (j + 1)
          = rb.height / opts.rows * j + rb.height / opts.rows := Nat.mul_succ _ _
      omega
  · intro i j a b hij hgi hgj
    have hilt : i < opts.rows * opts.cols := by
      have := lt_length_of_getElem_some hgi
      omega
    have hjlt : j < opts.rows * opts.cols := by
      have := lt_length_of_getElem_some hgj
      omega
    have hrowspos : 0 < opts.rows := by
      rcases Nat.eq_zero_or_pos opts.rows with h0 | h0
      · rw [h0] at hilt
        omega
      · exact h0
    have hieq : i = i / opts.rows * opts.rows + i % opts.rows := by
      have hdm := Nat.div_add_mod i opts.rows
      have hcm : i / opts.rows * opts.rows = opts.rows * (i / opts.rows) :=
        Nat.mul_comm _ _
      omega
    have hjeq : j = j / opts.rows * opts.rows + j % opts.rows := by
      have hdm := Nat.div_add_mod j opts.rows
      have hcm : j / opts.rows * opts.rows = opts.rows * (j / opts.rows) :=
        Nat.mul_comm _ _
      omega
    have hri : i % opts.rows < opts.rows := Nat.mod_lt _ hrowspos
    have hrj : j % opts.rows < opts.rows := Nat.mod_lt _ hrowspos
    have hci : i / opts.rows < opts.cols := by
      rw [Nat.div_lt_iff_lt_mul hrowspos]
      have hcm : opts.rows * opts.cols = opts.cols * opts.rows := Nat.mul_comm _ _
      omega
    have hcj : j / opts.rows < opts.cols := by
      rw [Nat.div_lt_iff_lt_mul hrowspos]
      have hcm : opts.rows * opts.cols = opts.cols * opts.rows := Nat.mul_comm _ _
      omega
    rw [hieq] at hgi
    rw [layoutPageLetter_getElem p n fc rb opts frames (i / opts.rows) (i % opts.rows)
      hri hci] at hgi
    rw [hjeq] at hgj
    rw [layoutPageLetter_getElem p n fc rb opts frames (j / opts.rows) (j % opts.rows)
      hrj hcj] at hgj
    obtain rfl := (Option.some.inj hgi).symm
    obtain rfl := (Option.some.inj hgj).symm
    rintro ⟨x, y, ⟨hA1, hA2, hA3, hA4⟩, ⟨hB1, hB2, hB3, hB4⟩⟩
    simp only [cellLetter] at hA1 hA2 hA3 hA4 hB1 hB2 hB3 hB4
    by_cases hceq : i / opts.rows = j / opts.rows
    · have hpe : i / opts.rows * opts.rows = j / opts.rows * opts.rows := by
        rw [hceq]
      have hrneq : i % opts.rows ≠ j % opts.rows := by
        intro h
        exact hij (by omega)
      rcases Nat.lt_or_ge (i % opts.rows) (j % opts.rows) with h | h
      · have hstep : rb.height / opts.rows * (i % opts.rows + 1)
            ≤ rb.height / opts.rows * (j % opts.rows) := Nat.mul_le_mul_left _ h
        have hsucc : rb.height / opts.rows * (i % opts.rows + 1)
            = rb.height / opts.rows * (i % opts.rows) + rb.height / opts.rows :=
          Nat.mul_succ _ _
        omega
      · have hlt : j % opts.rows < i % opts.rows := by omega
        have hstep : rb.height / opts.rows * (j % opts.rows + 1)
            ≤ rb.height / opts.rows * (i % opts.rows) := Nat.mul_le_mul_left _ hlt
        have hsucc : rb.height / opts.rows * (j % opts.rows + 1)
            = rb.height / opts.rows * (j % opts.rows) + rb.height / opts.rows :=
          Nat.mul_succ _ _
        omega
    · rcases Nat.lt_or_ge (i / opts.rows) (j / opts.rows) with h | h
      · have hstep : (i / opts.rows + 1) * (rb.width / opts.cols)
            ≤ j / opts.rows * (rb.width / opts.cols) := Nat.mul_le_mul_right _ h
        have hsucc : (i / opts.rows + 1) * (rb.width / opts.cols)
            = i / opts.rows * (rb.width / opts.cols) + rb.width / opts.cols :=
          Nat.succ_mul _ _
        omega
      · have hlt : j / opts.rows < i / opts.rows := by omega
        have hstep : (j / opts.rows + 1) * (rb.width / opts.cols)
            ≤ i / opts.rows * (rb.width / opts.cols) := Nat.mul_le_mul_right _ hlt
        have hsucc : (j / opts.rows + 1) * (rb.width / opts.cols)
            = j / opts.rows * (rb.width / opts.cols) + rb.width / opts.cols :=
          Nat.succ_mul _ _
        omega

/-- C7 witness: on a concrete 3-row page the layout has 3 placements
and the cells of rows 0 and 1 (600-pixel bands of a 1800-pixel page) do
not overlap. -/
theorem c7_placement_invariant_check :
    (layoutPage4x6x3 0 2 0 rb4x6 defaultOpts (List.range 6)).length = defaultOpts.rows
    ∧ ¬ Rect.overlaps { top := 0, left := 0, width := 1200, height := 600 }
        { top := 600, left := 0, width := 1200, height := 600 } := by
  have h := c7_placement_invariant defaultOpts 0 2 0 rb4x6 (List.range 6) 999 (List.range 6)
  refine ⟨h.1, ?_⟩
  exact h.2.2.2.2.2.2.1 0 1
    { info := some 0, index := 0, label := "flip", isFrontCover := true,
      bounds := { top := 0, left := 0, width := 1200, height := 600 } }
    { info := some 2, index := 2, label := "flip", isFrontCover := false,
      bounds := { top := 600, left := 0, width := 1200, height := 600 } }
    (by omega) (by decide) (by decide)

lemma c5_threeRow (opts : Options) (rb : Rect) (cov : Nat)
    (inp : List Nat) (hcov : opts.cover = true) (hlen : 3 ≤ inp.length) :
    ∃ pages, To4x6x3Model opts rb cov inp = Except.ok pages
      ∧ (∃! x : Frame Nat, (∃ pg ∈ pages, x ∈ pg.placements) ∧ x.isFrontCover = true)
      ∧ (∀ x : Frame Nat, (∃ pg ∈ pages, x ∈ pg.placements) → x.isFrontCover = true →
          x.info = some cov
          ∧ x.index
              = (if opts.reverseFrames then (trimFrames 3 inp).length - 1 else 0)) := by
  have hnpos : 1 ≤ inp.length / 3 := (Nat.one_le_div_iff (by norm_num)).2 hlen
  have htlen : (trimFrames 3 inp).length = 3 * (inp.length / 3) := trimFrames_length 3 inp
  have htpos : 0 < (trimFrames 3 inp).length := by omega
  obtain ⟨a0, ha0⟩ : ∃ a, (trimFrames 3 inp)[0]? = some a :=
    ⟨_, List.getElem?_eq_getElem htpos⟩
  have hcIdxlt : (if opts.reverseFrames then (trimFrames 3 inp).length - 1 else 0)
      < (trimFrames 3 inp).length := by
    cases opts.reverseFrames <;> simp <;> omega
  have hcs : coverSetup opts.cover opts.reverseFrames cov (trimFrames 3 inp)
      = Except.ok ((trimFrames 3 inp).set
          (if opts.reverseFrames then (trimFrames 3 inp).length - 1 else 0) cov,
        if opts.reverseFrames then (trimFrames 3 inp).length - 1 else 0) := by
    rw [hcov]
    unfold coverSetup
    rw [ha0]
    rfl
  have hf2len : ((trimFrames 3 inp).set
      (if opts.reverseFrames then (trimFrames 3 inp).length - 1 else 0) cov).length
      = 3 * (inp.length / 3) := by
    rw [List.length_set]
    exact htlen
  have hrun := to4x6x3_run opts rb cov inp _ _ hcs hf2len
  have hflag : ∀ pi ri, pi < inp.length / 3 → ri < 3 →
      ((cell4x6x3 pi (inp.length / 3)
          (if opts.reverseFrames then (trimFrames 3 inp).length - 1 else 0) rb
          { opts with rows := 3, cols := 1 }
          ((trimFrames 3 inp).set
            (if opts.reverseFrames then (trimFrames 3 inp).length - 1 else 0) cov)
          ri).isFrontCover = true
        ↔ (pi = 0 ∧ ri = 0)) := by
    intro pi ri hpi hri
    have hsplit : pi + ri * (inp.length / 3) = 0 ↔ (pi = 0 ∧ ri = 0) := by
      constructor
      · intro h0
        have hri0 : ri * (inp.length / 3) = 0 := by omega
        rcases Nat.mul_eq_zero.1 hri0 with h | h
        · exact ⟨by omega, h⟩
        · omega
      · rintro ⟨rfl, rfl⟩
        simp
    have hfi0lt : pi + ri * (inp.length / 3) < 3 * (inp.length / 3) := by
      have h2 : ri * (inp.length / 3) ≤ 2 * (inp.length / 3) :=
        Nat.mul_le_mul_right _ (by omega)
      omega
    rw [cell4x6x3_isFrontCover, beq_iff_eq, List.length_set]
    cases hrev : opts.reverseFrames
    · simpa using hsplit
    · simp only [if_pos]
      constructor
      · intro h
        exact hsplit.1 (by omega)
      · rintro ⟨rfl, rfl⟩
        simp
  refine ⟨_, hrun, ?_, ?_⟩
  · refine ⟨cell4x6x3 0 (inp.length / 3)
      (if opts.reverseFrames then (trimFrames 3 inp).length - 1 else 0) rb
      { opts with rows := 3, cols := 1 }
      ((trimFrames 3 inp).set
        (if opts.reverseFrames then (trimFrames 3 inp).length - 1 else 0) cov) 0,
      ⟨?_, ?_⟩, ?_⟩
    · exact (to4x6x3_pages_mem opts rb _ _ _ _).2 ⟨0, by omega, 0, by omega, rfl⟩
    · exact (hflag 0 0 (by omega) (by omega)).2 ⟨rfl, rfl⟩
    · rintro y ⟨hymem, hyflag⟩
      obtain ⟨pi, hpi, ri, hri, rfl⟩ := (to4x6x3_pages_mem opts rb _ _ _ y).1 hymem
      obtain ⟨rfl, rfl⟩ := (hflag pi ri hpi hri).1 hyflag
      rfl
  · intro x hxmem hxflag
    obtain ⟨pi, hpi, ri, hri, rfl⟩ := (to4x6x3_pages_mem opts rb _ _ _ x).1 hxmem
    obtain ⟨rfl, rfl⟩ := (hflag pi ri hpi hri).1 hxflag
    constructor
    · rw [cell4x6x3_info]
      have hfin : (if opts.reverseFrames
          then ((trimFrames 3 inp).set
              (if opts.reverseFrames then (trimFrames 3 inp).length - 1 else 0)
              cov).length - (0 + 0 * (inp.length / 3)) - 1
          else 0 + 0 * (inp.length / 3))
          = (if opts.reverseFrames then (trimFrames 3 inp).length - 1 else 0) := by
        rw [List.length_set]
        cases opts.reverseFrames <;> simp
      rw [hfin]
      exact List.getElem?_set_eq_of_lt cov hcIdxlt
    · rw [cell4x6x3_index, List.length_set]
      cases opts.reverseFrames <;> simp

lemma c5_letter (opts : Options) (rb : Rect) (cov : Nat)
    (inp : List Nat) (hcov : opts.cover = true) (hlen : 10 ≤ inp.length) :
    ∃ pages, ToLetterModel opts rb cov inp = Except.ok pages
      ∧ (∃! x : Frame Nat, (∃ pg ∈ pages, x ∈ pg.placements) ∧ x.isFrontCover = true)
      ∧ (∀ x : Frame Nat, (∃ pg ∈ pages, x ∈ pg.placements) → x.isFrontCover = true →
          x.info = some cov
          ∧ x.index
              = (if opts.reverseFrames then (trimFrames 10 inp).length - 1 else 0)) := by
  have hnpos : 1 ≤ inp.length / 10 := (Nat.one_le_div_iff (by norm_num)).2 hlen
  have htlen : (trimFrames 10 inp).length = 10 * (inp.length / 10) :=
    trimFrames_length 10 inp
  have htpos : 0 < (trimFrames 10 inp).length := by omega
  obtain ⟨a0, ha0⟩ : ∃ a, (trimFrames 10 inp)[0]? = some a :=
    ⟨_, List.getElem?_eq_getElem htpos⟩
  have hcIdxlt : (if opts.reverseFrames then (trimFrames 10 inp).length - 1 else 0)
      < (trimFrames 10 inp).length := by
    cases opts.reverseFrames <;> simp <;> omega
  have hcs : coverSetup opts.cover opts.reverseFrames cov (trimFrames 10 inp)
      = Except.ok ((trimFrames 10 inp).set
          (if opts.reverseFrames then (trimFrames 10 inp).length - 1 else 0) cov,
        if opts.reverseFrames then (trimFrames 10 inp).length - 1 else 0) := by
    rw [hcov]
    unfold coverSetup
    rw [ha0]
    rfl
  have hf2len : ((trimFrames 10 inp).set
      (if opts.reverseFrames then (trimFrames 10 inp).length - 1 else 0) cov).length
      = 10 * (inp.length / 10) := by
    rw [List.length_set]
    exact htlen
  have hrun := toLetter_run opts rb cov inp _ _ hcs hf2len
  have hflag : ∀ pi ci ri, pi < inp.length / 10 → ci < 2 → ri < 5 →
      ((cellLetter pi (inp.length / 10)
          (if opts.reverseFrames then (trimFrames 10 inp).length - 1 else 0) rb
          { opts with rows := 5, cols := 2 }
          ((trimFrames 10 inp).set
            (if opts.reverseFrames then (trimFrames 10 inp).length - 1 else 0) cov)
          ci ri).isFrontCover = true
        ↔ (pi = 0 ∧ ci = 0 ∧ ri = 0)) := by
    intro pi ci ri hpi hci hri
    have hsplit : pi + (ri * (inp.length / 10) + ci * (inp.length / 10) * 5) = 0
        ↔ (pi = 0 ∧ ci = 0 ∧ ri = 0) := by
      constructor
      · intro h0
        have hri0 : ri * (inp.length / 10) = 0 := by omega
        have hci0 : ci * (inp.length / 10) * 5 = 0 := by omega
        refine ⟨by omega, ?_, ?_⟩
        · rcases Nat.mul_eq_zero.1 hci0 with h | h
          · rcases Nat.mul_eq_zero.1 h with h2 | h2
            · exact h2
            · omega
          · omega
        · rcases Nat.mul_eq_zero.1 hri0 with h | h
          · exact h
          · omega
      · rintro ⟨rfl, rfl, rfl⟩
        simp
    have hfi0lt : pi + (ri * (inp.length / 10) + ci * (inp.length / 10) * 5)
        < 10 * (inp.length / 10) := by
      have h1 : ri * (inp.length / 10) ≤ 4 * (inp.length / 10) :=
        Nat.mul_le_mul_right _ (by omega)
      have h2 : ci * (inp.length / 10) ≤ 1 * (inp.length / 10) :=
        Nat.mul_le_mul_right _ (by omega)
      have h3 : ci * (inp.length / 10) * 5 ≤ 1 * (inp.length / 10) * 5 :=
        Nat.mul_le_mul_right _ h2
      omega
    rw [cellLetter_isFrontCover, beq_iff_eq, List.length_set,
      show ({ opts with rows := 5, cols := 2 } : Options).rows = 5 from rfl]
    cases hrev : opts.reverseFrames
    · simpa using hsplit
    · simp only [if_pos]
      constructor
      · intro h
        exact hsplit.1 (by omega)
      · rintro ⟨rfl, rfl, rfl⟩
        simp
  refine ⟨_, hrun, ?_, ?_⟩
  · refine ⟨cellLetter 0 (inp.length / 10)
      (if opts.reverseFrames then (trimFrames 10 inp).length - 1 else 0) rb
      { opts with rows := 5, cols := 2 }
      ((trimFrames 10 inp).set
        (if opts.reverseFrames then (trimFrames 10 inp).length - 1 else 0) cov) 0 0,
      ⟨?_, ?_⟩, ?_⟩
    · exact (toLetter_pages_mem opts rb _ _ _ _).2
        ⟨0, by omega, 0, 0, by omega, by omega, rfl⟩
    · exact (hflag 0 0 0 (by omega) (by omega) (by omega)).2 ⟨rfl, rfl, rfl⟩
    · rintro y ⟨hymem, hyflag⟩
      obtain ⟨pi, hpi, ci, ri, hci, hri, rfl⟩ :=
        (toLetter_pages_mem opts rb _ _ _ y).1 hymem
      obtain ⟨rfl, rfl, rfl⟩ := (hflag pi ci ri hpi hci hri).1 hyflag
      rfl
  · intro x hxmem hxflag
    obtain ⟨pi, hpi, ci, ri, hci, hri, rfl⟩ :=
      (toLetter_pages_mem opts rb _ _ _ x).1 hxmem
    obtain ⟨rfl, rfl, rfl⟩ := (hflag pi ci ri hpi hci hri).1 hxflag
    constructor
    · rw [cellLetter_info]
      have hfin : (if opts.reverseFrames
          then ((trimFrames 10 inp).set
              (if opts.reverseFrames then (trimFrames 10 inp).length - 1 else 0)
              cov).length
            - (0 + (0 * (inp.length / 10)
                + 0 * (inp.length / 10)
                  * ({ opts with rows := 5, cols := 2 } : Options).rows)) - 1
          else 0 + (0 * (inp.length / 10)
              + 0 * (inp.length / 10)
                * ({ opts with rows := 5, cols := 2 } : Options).rows))
          = (if opts.reverseFrames then (trimFrames 10 inp).length - 1 else 0) := by
        rw [List.length_set]
        cases opts.reverseFrames <;> simp
      rw [hfin]
      exact List.getElem?_set_eq_of_lt cov hcIdxlt
    · rw [cellLetter_index, List.length_set]
      cases opts.reverseFrames <;> simp

/-- C5: with the cover enabled and at least one full page of frames,
the run succeeds, the cover image is substituted at index 0 of the
trimmed list (or at the last index when frames are reversed), exactly
one placement of the whole run has `isFrontCover = true`, and that
placement's underlying image is the cover-rendered image and its frame
index is the cover index — for both the three-row (capacity 3) and the
letter grid (capacity 10) runs. -/
theorem c5_cover_substitution (opts : Options) (rb : Rect) (cov : Nat)
    (inp : List Nat) (hcov : opts.cover = true) :
    (3 ≤ inp.length →
      ∃ pages, To4x6x3Model opts rb cov inp = Except.ok pages
        ∧ (∃! x : Frame Nat, (∃ pg ∈ pages, x ∈ pg.placements) ∧ x.isFrontCover = true)
        ∧ (∀ x : Frame Nat, (∃ pg ∈ pages, x ∈ pg.placements) → x.isFrontCover = true →
            x.info = some cov
            ∧ x.index
                = (if opts.reverseFrames then (trimFrames 3 inp).length - 1 else 0)))
    ∧ (10 ≤ inp.length →
      ∃ pages, ToLetterModel opts rb cov inp = Except.ok pages
        ∧ (∃! x : Frame Nat, (∃ pg ∈ pages, x ∈ pg.placements) ∧ x.isFrontCover = true)
        ∧ (∀ x : Frame Nat, (∃ pg ∈ pages, x ∈ pg.placements) → x.isFrontCover = true →
            x.info = some cov
            ∧ x.index
                = (if opts.reverseFrames then (trimFrames 10 inp).length - 1 else 0))) := by
  constructor
  · intro hlen
    exact c5_threeRow opts rb cov inp hcov hlen
  · intro hlen
    exact c5_letter opts rb cov inp hcov hlen

/-- C5 witness: 30 frames with the cover enabled: unreversed, the
unique cover placement has frame index 0; reversed, it has index 29 —
in both the three-row and the letter-grid runs. -/
theorem c5_cover_substitution_check :
    (∃ pages, To4x6x3Model { defaultOpts with cover := true } rb4x6 999 (List.range 30)
        = Except.ok pages
      ∧ (∃! x : Frame Nat, (∃ pg ∈ pages, x ∈ pg.placements) ∧ x.isFrontCover = true)
      ∧ (∀ x : Frame Nat, (∃ pg ∈ pages, x ∈ pg.placements) → x.isFrontCover = true →
          x.info = some 999 ∧ x.index = 0))
    ∧ (∃ pages, To4x6x3Model { defaultOpts with cover := true, reverseFrames := true }
          rb4x6 999 (List.range 30) = Except.ok pages
      ∧ (∃! x : Frame Nat, (∃ pg ∈ pages, x ∈ pg.placements) ∧ x.isFrontCover = true)
      ∧ (∀ x : Frame Nat, (∃ pg ∈ pages, x ∈ pg.placements) → x.isFrontCover = true →
          x.info = some 999 ∧ x.index = 29))
    ∧ (∃ pages, ToLetterModel { defaultOpts with cover := true } rbLetter 999
          (List.range 30) = Except.ok pages
      ∧ (∃! x : Frame Nat, (∃ pg ∈ pages, x ∈ pg.placements) ∧ x.isFrontCover = true)
      ∧ (∀ x : Frame Nat, (∃ pg ∈ pages, x ∈ pg.placements) → x.isFrontCover = true →
          x.info = some 999 ∧ x.index = 0))
    ∧ (∃ pages, ToLetterModel { defaultOpts with cover := true, reverseFrames := true }
          rbLetter 999 (List.range 30) = Except.ok pages
      ∧ (∃! x : Frame Nat, (∃ pg ∈ pages, x ∈ pg.placements) ∧ x.isFrontCover = true)
      ∧ (∀ x : Frame Nat, (∃ pg ∈ pages, x ∈ pg.placements) → x.isFrontCover = true →
          x.info = some 999 ∧ x.index = 29)) := by
  refine ⟨?_, ?_, ?_, ?_⟩
  · have h := (c5_cover_substitution { defaultOpts with cover := true } rb4x6 999
      (List.range 30) rfl).1 (by norm_num)
    simpa using h
  · have h := (c5_cover_substitution
      { defaultOpts with cover := true, reverseFrames := true } rb4x6 999
      (List.range 30) rfl).1 (by norm_num)
    simpa using h
  · have h := (c5_cover_substitution { defaultOpts with cover := true } rbLetter 999
      (List.range 30) rfl).2 (by norm_num)
    simpa using h
  · have h := (c5_cover_substitution
      { defaultOpts with cover := true, reverseFrames := true } rbLetter 999
      (List.range 30) rfl).2 (by norm_num)
    simpa using h

lemma c10_threeRow
    (opts : Options) (rb : Rect) (cov : Nat) (inp : List Nat)
    (hcov : opts.cover = false) (hlen : 3 ≤ inp.length) :
    ∃ pages, To4x6x3Model opts rb cov inp = Except.ok pages
      ∧ (∃ pg ∈ pages, ∃ x ∈ pg.placements, x.index = 0)
      ∧ (∀ pg ∈ pages, ∀ x ∈ pg.placements, x.index = 0 →
          x.isFrontCover = true
          ∧ x.info = inp[0]?
          ∧ compFrameCellRender x
              = { drawsIndexLabel := false
                  drawsIdentifierLabel := false
                  drawsCoverTitle := true }) := by
  have hnpos : 1 ≤ inp.length / 3 := (Nat.one_le_div_iff (by norm_num)).2 hlen
  have htlen : (trimFrames 3 inp).length = 3 * (inp.length / 3) := trimFrames_length 3 inp
  have hcs : coverSetup opts.cover opts.reverseFrames cov (trimFrames 3 inp)
      = Except.ok (trimFrames 3 inp, 0) := by
    rw [hcov]
    rfl
  have hrun := to4x6x3_run opts rb cov inp (trimFrames 3 inp) 0 hcs htlen
  refine ⟨_, hrun, ?_, ?_⟩
  · obtain ⟨pi, ri, hpi, hri, hfi⟩ : ∃ pi ri, pi < inp.length / 3 ∧ ri < 3 ∧
        (cell4x6x3 pi (inp.length / 3) 0 rb { opts with rows := 3, cols := 1 }
          (trimFrames 3 inp) ri).index = 0 := by
      cases hrev : opts.reverseFrames
      · refine ⟨0, 0, by omega, by omega, ?_⟩
        rw [cell4x6x3_index]
        simp
      · refine ⟨inp.length / 3 - 1, 2, by omega, by omega, ?_⟩
        rw [cell4x6x3_index]
        simp only [if_pos]
        omega
    obtain ⟨pg, hpg, hxin⟩ := (to4x6x3_pages_mem opts rb (inp.length / 3) 0
      (trimFrames 3 inp) _).2 ⟨pi, hpi, ri, hri, rfl⟩
    exact ⟨pg, hpg, _, hxin, hfi⟩
  · intro pg hpg x hx hxidx
    obtain ⟨pi, hpi, ri, hri, rfl⟩ := (to4x6x3_pages_mem opts rb (inp.length / 3) 0
      (trimFrames 3 inp) x).1 ⟨pg, hpg, hx⟩
    rw [cell4x6x3_index] at hxidx
    have hfc : (cell4x6x3 pi (inp.length / 3) 0 rb { opts with rows := 3, cols := 1 }
        (trimFrames 3 inp) ri).isFrontCover = true := by
      rw [cell4x6x3_isFrontCover, hxidx]
      rfl
    refine ⟨hfc, ?_, ?_⟩
    · rw [cell4x6x3_info, hxidx]
      exact List.getElem?_take_of_lt (by omega)
    · simp [compFrameCellRender, hfc]

lemma c10_letter
    (opts : Options) (rb : Rect) (cov : Nat) (inp : List Nat)
    (hcov : opts.cover = false) (hlen : 10 ≤ inp.length) :
    ∃ pages, ToLetterModel opts rb cov inp = Except.ok pages
      ∧ (∃ pg ∈ pages, ∃ x ∈ pg.placements, x.index = 0)
      ∧ (∀ pg ∈ pages, ∀ x ∈ pg.placements, x.index = 0 →
          x.isFrontCover = true
          ∧ x.info = inp[0]?
          ∧ compFrameCellRender x
              = { drawsIndexLabel := false
                  drawsIdentifierLabel := false
                  drawsCoverTitle := true }) := by
  have hnpos : 1 ≤ inp.length / 10 := (Nat.one_le_div_iff (by norm_num)).2 hlen
  have htlen : (trimFrames 10 inp).length = 10 * (inp.length / 10) :=
    trimFrames_length 10 inp
  have hcs : coverSetup opts.cover opts.reverseFrames cov (trimFrames 10 inp)
      = Except.ok (trimFrames 10 inp, 0) := by
    rw [hcov]
    rfl
  have hrun := toLetter_run opts rb cov inp (trimFrames 10 inp) 0 hcs htlen
  refine ⟨_, hrun, ?_, ?_⟩
  · obtain ⟨pi, ci, ri, hpi, hci, hri, hfi⟩ : ∃ pi ci ri,
        pi < inp.length / 10 ∧ ci < 2 ∧ ri < 5 ∧
        (cellLetter pi (inp.length / 10) 0 rb { opts with rows := 5, cols := 2 }
          (trimFrames 10 inp) ci ri).index = 0 := by
      cases hrev : opts.reverseFrames
      · refine ⟨0, 0, 0, by omega, by omega, by omega, ?_⟩
        rw [cellLetter_index]
        simp
      · refine ⟨inp.length / 10 - 1, 1, 4, by omega, by omega, by omega, ?_⟩
        rw [cellLetter_index]
        simp only [if_pos]
        simp
        omega
    obtain ⟨pg, hpg, hxin⟩ := (toLetter_pages_mem opts rb (inp.length / 10) 0
      (trimFrames 10 inp) _).2 ⟨pi, hpi, ci, ri, hci, hri, rfl⟩
    exact ⟨pg, hpg, _, hxin, hfi⟩
  · intro pg hpg x hx hxidx
    obtain ⟨pi, hpi, ci, ri, hci, hri, rfl⟩ := (toLetter_pages_mem opts rb
      (inp.length / 10) 0 (trimFrames 10 inp) x).1 ⟨pg, hpg, hx⟩
    rw [cellLetter_index] at hxidx
    have hfc : (cellLetter pi (inp.length / 10) 0 rb { opts with rows := 5, cols := 2 }
        (trimFrames 10 inp) ci ri).isFrontCover = true := by
      rw [cellLetter_isFrontCover, hxidx]
      rfl
    refine ⟨hfc, ?_, ?_⟩
    · rw [cellLetter_info, hxidx]
      exact List.getElem?_take_of_lt (by omega)
    · simp [compFrameCellRender, hfc]

/-- C10: with the cover disabled, the cover-index variable keeps its
zero default, so the placement carrying frame index 0 still has
`isFrontCover = true`: its underlying image is the original first
trimmed frame (no cover image was substituted), yet it is rendered
without the numeric-index and identifier debug labels and with the
cover title-text annotation instead — in both the three-row and the
letter-grid runs. -/
theorem c10_cover_disabled_frame_zero
    (opts : Options) (rb : Rect) (cov : Nat) (inp : List Nat)
    (hcov : opts.cover = false) :
    (3 ≤ inp.length →
      ∃ pages, To4x6x3Model opts rb cov inp = Except.ok pages
        ∧ (∃ pg ∈ pages, ∃ x ∈ pg.placements, x.index = 0)
        ∧ (∀ pg ∈ pages, ∀ x ∈ pg.placements, x.index = 0 →
            x.isFrontCover = true
            ∧ x.info = inp[0]?
            ∧ compFrameCellRender x
                = { drawsIndexLabel := false
                    drawsIdentifierLabel := false
                    drawsCoverTitle := true }))
    ∧ (10 ≤ inp.length →
      ∃ pages, ToLetterModel opts rb cov inp = Except.ok pages
        ∧ (∃ pg ∈ pages, ∃ x ∈ pg.placements, x.index = 0)
        ∧ (∀ pg ∈ pages, ∀ x ∈ pg.placements, x.index = 0 →
            x.isFrontCover = true
            ∧ x.info = inp[0]?
            ∧ compFrameCellRender x
                = { drawsIndexLabel := false
                    drawsIdentifierLabel := false
                    drawsCoverTitle := true })) := by
  constructor
  · intro hlen
    exact c10_threeRow opts rb cov inp hcov hlen
  · intro hlen
    exact c10_letter opts rb cov inp hcov hlen

/-- C10 witness: 30 frames, cover disabled, both layouts: some
placement carries frame index 0, and every such placement is treated as
the front cover (no debug labels, cover title drawn) while keeping the
original image. -/
theorem c10_cover_disabled_frame_zero_check :
    (∃ pages, To4x6x3Model defaultOpts rb4x6 999 (List.range 30) = Except.ok pages
      ∧ (∃ pg ∈ pages, ∃ x ∈ pg.placements, x.index = 0)
      ∧ (∀ pg ∈ pages, ∀ x ∈ pg.placements, x.index = 0 →
          x.isFrontCover = true
          ∧ x.info = (List.range 30)[0]?
          ∧ compFrameCellRender x
              = { drawsIndexLabel := false
                  drawsIdentifierLabel := false
                  drawsCoverTitle := true }))
    ∧ (∃ pages, ToLetterModel defaultOpts rbLetter 999 (List.range 30) = Except.ok pages
      ∧ (∃ pg ∈ pages, ∃ x ∈ pg.placements, x.index = 0)
      ∧ (∀ pg ∈ pages, ∀ x ∈ pg.placements, x.index = 0 →
          x.isFrontCover = true
          ∧ x.info = (List.range 30)[0]?
          ∧ compFrameCellRender x
              = { drawsIndexLabel := false
                  drawsIdentifierLabel := false
                  drawsCoverTitle := true })) :=
  ⟨(c10_cover_disabled_frame_zero defaultOpts rb4x6 999 (List.range 30) rfl).1
      (by norm_num),
    (c10_cover_disabled_frame_zero defaultOpts rbLetter 999 (List.range 30) rfl).2
      (by norm_num)⟩

end Flipbook
